import Mathlib

/-!
Verification development for the OpenID relying-party demo server
(src/demo.mjs).

The JavaScript source is shallowly embedded. Strings are modelled as
lists of characters (Lean String values are converted through
String.data), the JavaScript object used for query parameters is
modelled as an association list with unique keys kept in insertion
order, and a thrown exception is modelled with Except. Network and
transport are inputs: the handler for the callback path receives the
already decoded query parameters and the provider round-trip result as
arguments.
-/

namespace OpenidSteam

/-- Model of the JavaScript String split method with a one-character
separator: split at every occurrence, keep empty pieces, and return one
empty piece for the empty string (src/demo.mjs line 120). -/
def splitOnChar : List Char → Char → List (List Char)
  | [], _ => [[]]
  | c :: cs, sep =>
    if c = sep then
      [] :: splitOnChar cs sep
    else
      match splitOnChar cs sep with
      | [] => [[c]]
      | l :: ls => (c :: l) :: ls

/-- Model of the JavaScript String startsWith method on character
lists. -/
def startsWithChars (s p : List Char) : Bool :=
  match p with
  | [] => true
  | q :: qs =>
    match s with
    | [] => false
    | c :: cs => c == q && startsWithChars cs qs

/-- Model of the JavaScript String lastIndexOf method for a single
character: none models the JavaScript result -1 (src/demo.mjs
line 152). -/
def lastIndexOf? : List Char → Char → Option Nat
  | [], _ => none
  | c :: cs, t =>
    match lastIndexOf? cs t with
    | some i => some (i + 1)
    | none => if c = t then some 0 else none

/-- The key of a response line: the characters before the first colon,
or the whole line when it has no colon. -/
def keyOf : List Char → List Char
  | [] => []
  | c :: cs => if c = ':' then [] else c :: keyOf cs

/-- The recognized line start for the ns entry (src/demo.mjs line 122). -/
def nsKey : List Char := "ns:".data

/-- The recognized line start for the is_valid entry (src/demo.mjs
line 125). -/
def ivKey : List Char := "is_valid:".data

/-- The key name ns. -/
def nsName : List Char := "ns".data

/-- The key name is_valid. -/
def ivName : List Char := "is_valid".data

/-- The literal accepted as the true value (src/demo.mjs line 127). -/
def trueChars : List Char := "true".data

/-- The literal accepted as the false value (src/demo.mjs line 128). -/
def falseChars : List Char := "false".data

/-- The partially filled result object while the lines of a
check_authentication response are processed (src/demo.mjs line 119). -/
structure ParseState where
  ns : Option (List Char) := none
  is_valid : Option Bool := none
  deriving Repr, DecidableEq

/-- The structured result of parse_oid_check_authentication
(src/demo.mjs lines 116 and 133). -/
structure OidCheckResult where
  ns : String
  is_valid : Bool
  deriving Repr, DecidableEq

/-- One iteration of the entry loop in parse_oid_check_authentication
(src/demo.mjs lines 121 to 132): a line starting with the ns key stores
everything after that key without validation, a line starting with the
is_valid key must carry exactly the literal true or false, and any
other line throws. -/
def parse_entry (st : ParseState) (entry : List Char) : Except String ParseState :=
  if startsWithChars entry nsKey then
    .ok { st with ns := some (entry.drop nsKey.length) }
  else if startsWithChars entry ivKey then
    let v := entry.drop ivKey.length
    if v = trueChars then .ok { st with is_valid := some true }
    else if v = falseChars then .ok { st with is_valid := some false }
    else .error ("Could not parse value is_valid as boolean")
  else .error ("Unknown entry")

/-- The entry loop of parse_oid_check_authentication: the first
throwing entry aborts the whole parse. -/
def parse_entries : ParseState → List (List Char) → Except String ParseState
  | st, [] => .ok st
  | st, l :: ls =>
    match parse_entry st l with
    | .error e => .error e
    | .ok st2 => parse_entries st2 ls

/-- The final check of parse_oid_check_authentication (src/demo.mjs
line 133): both keys must have been seen, otherwise the parse throws. -/
def finalize : Except String ParseState → Except String OidCheckResult
  | .error e => .error e
  | .ok st =>
    match st.ns, st.is_valid with
    | some n, some iv => .ok { ns := String.mk n, is_valid := iv }
    | _, _ => .error ("Expected entries ns and is_valid")

/-- The non-empty lines of the response text (src/demo.mjs line 120):
split at every line feed and drop the empty pieces. -/
def entriesOf (response : String) : List (List Char) :=
  (splitOnChar response.data '\n').filter (fun n => n != [])

/-- The parse of a given list of non-empty lines. -/
def parse_entries_result (es : List (List Char)) : Except String OidCheckResult :=
  finalize (parse_entries {} es)

/-- Embedding of parse_oid_check_authentication (src/demo.mjs lines 118
to 135). -/
def parse_oid_check_authentication (response : String) : Except String OidCheckResult :=
  parse_entries_result (entriesOf response)

/-- Success test for an embedded JavaScript call: false when the call
throws. -/
def exceptOk {α : Type} (e : Except String α) : Bool :=
  match e with
  | .ok _ => true
  | .error _ => false

/-- The is_valid component of a parse result, when the parse
succeeded. -/
def ivOf (e : Except String OidCheckResult) : Option Bool :=
  match e with
  | .ok r => some r.is_valid
  | .error _ => none

/-- The is_valid option of a partial parse state, when the entry loop
did not throw. -/
def stIv (e : Except String ParseState) : Option (Option Bool) :=
  match e with
  | .ok s => some s.is_valid
  | .error _ => none

/-- Whether the ns option of a partial parse state is filled, when the
entry loop did not throw. -/
def stNs (e : Except String ParseState) : Option Bool :=
  match e with
  | .ok s => some s.ns.isSome
  | .error _ => none

/-- The first operand when it is filled, the second one otherwise. -/
def optOr {α : Type} : Option α → Option α → Option α
  | some x, _ => some x
  | none, b => b

/-- The value after the ns key of the last line carrying that key. -/
def lastNsVal : List (List Char) → Option (List Char)
  | [] => none
  | l :: ls =>
    match lastNsVal ls with
    | some v => some v
    | none => if startsWithChars l nsKey then some (l.drop nsKey.length) else none

/-- The boolean carried by the last line with the is_valid key. -/
def lastIvVal : List (List Char) → Option Bool
  | [] => none
  | l :: ls =>
    match lastIvVal ls with
    | some b => some b
    | none => if startsWithChars l ivKey then some (l.drop ivKey.length == trueChars) else none

/-- A line the entry loop accepts: it starts with the ns key, or it
starts with the is_valid key and carries one of the two accepted
literals. -/
def GoodLine (l : List Char) : Prop :=
  startsWithChars l nsKey = true ∨
    (startsWithChars l ivKey = true ∧
      (l.drop ivKey.length = trueChars ∨ l.drop ivKey.length = falseChars))

/-- Embedding of parse_oid_claimed_id_steam (src/demo.mjs lines 151 to
157). The argument is none when the openid.claimed_id query parameter
is absent: the JavaScript call then throws a TypeError on the null
value. The assert on idx covers both a missing slash (JavaScript index
-1, modelled here as none) and a slash at position 0. -/
def parse_oid_claimed_id_steam (claimed_id : Option String) : Except String String :=
  match claimed_id with
  | none => .error ("TypeError: claimed_id is null")
  | some s =>
    match lastIndexOf? s.data '/' with
    | none => .error ("AssertionError: idx is gt 0")
    | some idx =>
      if 0 < idx then
        let steam_id := s.data.drop (idx + 1)
        if steam_id.length = 17 then .ok (String.mk steam_id)
        else .error ("Could not parse Steam ID from claimed_id")
      else .error ("AssertionError: idx is gt 0")

/-- A structured URL value: base is the part before the query, the
query is an ordered list of key and value pairs, and percent encoding
is abstracted away. Assigning an empty search clears the query but not
the fragment, as with the JavaScript URL class. -/
structure UrlModel where
  base : String
  query : List (String × String)
  fragment : Option String
  deriving Repr, DecidableEq

/-- The static provider configuration (src/demo.mjs lines 10 to 26). -/
structure SteamOpenIdConfig where
  url : UrlModel
  params : List (String × String)
  deriving Repr, DecidableEq

/-- The configured provider URL and fixed parameter set (src/demo.mjs
lines 10 to 26). The object literal repeats the key openid.mode with
the same value on lines 18 and 19; a JavaScript object literal
collapses that repetition to a single entry in first position, which
the list records. -/
def config_steam_openid : SteamOpenIdConfig := {
  url := { base := "https://steamcommunity.com/openid/login", query := [], fragment := none },
  params := [
    ("openid.mode", "checkid_setup"),
    ("openid.ns", "http://specs.openid.net/auth/2.0"),
    ("openid.identity", "http://specs.openid.net/auth/2.0/identifier_select"),
    ("openid.claimed_id", "http://specs.openid.net/auth/2.0/identifier_select"),
    ("openid.return_to", "http://localhost:8080/auth/steam"),
    ("openid.realm", "http://localhost:8080")
  ]
}

/-- A response written by the handler: status code, body, and the
Location header when one is set. -/
structure HttpResponse where
  status : Nat
  body : String
  location : Option UrlModel := none
  deriving Repr, DecidableEq

/-- Embedding of the root branch of handle (src/demo.mjs lines 44 to
53): copy the provider URL, clear its query, append every configured
parameter in order, and answer 303 with the Location header and an
empty body. -/
def handle_root (cfg : SteamOpenIdConfig) : HttpResponse :=
  let u1 : UrlModel := { cfg.url with query := [] }
  let u2 : UrlModel := { u1 with query := u1.query ++ cfg.params }
  { status := 303, body := "", location := some u2 }

/-- Numeric value of a string of digit characters, as JavaScript reads
a canonical numeric property key. -/
def digitsToNat (cs : List Char) : Nat :=
  cs.foldl (fun acc c => acc * 10 + (c.toNat - ('0').toNat)) 0

/-- Model of the ECMAScript array-index test for a property key: a
non-empty string of digits in canonical form (no leading zero except
for the key 0 itself) whose numeric value is below 2 ^ 32 - 1. Such
keys are enumerated before all other string keys, in ascending numeric
order. -/
def isArrayIndexKey (s : String) : Bool :=
  !s.data.isEmpty && s.data.all Char.isDigit &&
    (s.data.head? != some ('0') || s == "0") &&
    digitsToNat s.data < 4294967295

/-- Insertion into a list of array-index entries kept in ascending
numeric key order. -/
def insertByIdx (p : String × String) : List (String × String) → List (String × String)
  | [] => [p]
  | q :: qs =>
    if digitsToNat p.1.data < digitsToNat q.1.data then p :: q :: qs
    else q :: insertByIdx p qs

/-- Sort of array-index entries into ascending numeric key order. The
keys of an object are unique, so ties do not occur. -/
def sortByIdx : List (String × String) → List (String × String)
  | [] => []
  | p :: ps => insertByIdx p (sortByIdx ps)

/-- Model of the enumeration order of Object.entries over the own
properties of a JavaScript object: array-index keys first, in ascending
numeric order, then the remaining string keys in property creation
order. -/
def jsObjEntries (obj : List (String × String)) : List (String × String) :=
  sortByIdx (obj.filter (fun p => isArrayIndexKey p.1)) ++
    obj.filter (fun p => !isArrayIndexKey p.1)

/-- Model of assignment into a JavaScript object, acting on the list of
its own properties in creation order: an existing key keeps its
position and receives the new value, a new key is appended at the end.
Assigning to the key __proto__ hits the accessor inherited from
Object.prototype, whose setter ignores a string value, so no own
property is created and the object is unchanged. -/
def jsObjSet (obj : List (String × String)) (k v : String) : List (String × String) :=
  if k = "__proto__" then obj
  else if k ∈ obj.map Prod.fst then
    obj.map (fun p => if p.1 = k then (k, v) else p)
  else
    obj ++ [(k, v)]

/-- One iteration of the parameter-forwarding loop (src/demo.mjs lines
61 to 64): a received openid.mode field is skipped, every other field
is assigned into the params_out object. -/
def build_step (acc : List (String × String)) (kv : String × String) : List (String × String) :=
  if kv.1 = "openid.mode" then acc else jsObjSet acc kv.1 kv.2

/-- Embedding of the construction of params_out and its enumeration
(src/demo.mjs lines 58 to 69): the object starts with openid.mode bound
to check_authentication, the received parameters are folded in, and the
entries of the object, in the enumeration order of Object.entries, form
the query of the re-validation request. -/
def build_params_out (params_in : List (String × String)) : List (String × String) :=
  jsObjEntries (params_in.foldl build_step [("openid.mode", "check_authentication")])

/-- Model of the URLSearchParams get method: the value of the first
field with the given key, none when absent (JavaScript null). -/
def getParam (ps : List (String × String)) (k : String) : Option String :=
  (ps.find? (fun p => p.1 == k)).map Prod.snd

/-- Outcome of the callback branch: either an exception escaped the
async handler, in which case no response is written and no outbound
request was issued (the escape happens at the extraction call), or a
re-validation request with the recorded query was issued and a response
was written. -/
inductive AuthOutcome where
  | unhandled (err : String)
  | handled (issued : List (String × String)) (resp : HttpResponse)
  deriving Repr, DecidableEq

/-- The query of the re-validation request, when one was issued. -/
def issuedRequest : AuthOutcome → Option (List (String × String))
  | .unhandled _ => none
  | .handled q _ => some q

/-- The response written by the callback branch, when one was
written. -/
def writtenResponse : AuthOutcome → Option HttpResponse
  | .unhandled _ => none
  | .handled _ r => some r

/-- Embedding of the callback branch of handle (src/demo.mjs lines 55
to 97). params_in abstracts the decoded query of the request URL; the
provider round trip is an input, given as the status code and body that
the single outbound POST receives. The extraction call on line 57 is
not wrapped in try, so a throw there escapes the handler before the
outbound request exists; the response parse on line 84 is wrapped and
its failure maps to status 500, as does a provider status other than
200. Every written body is empty. -/
def handle_auth_steam (params_in : List (String × String))
    (provider_status : Nat) (provider_body : String) : AuthOutcome :=
  match parse_oid_claimed_id_steam (getParam params_in ("openid.claimed_id")) with
  | .error e => .unhandled e
  | .ok _claimed_steam_id =>
    let params_out := build_params_out params_in
    if provider_status ≠ 200 then .handled params_out { status := 500, body := "" }
    else
      match parse_oid_check_authentication provider_body with
      | .error _ => .handled params_out { status := 500, body := "" }
      | .ok r => .handled params_out { status := if r.is_valid then 200 else 401, body := "" }

/-! Helper lemmas about the character-level models. -/

theorem startsWithChars_append (p r : List Char) : startsWithChars (p ++ r) p = true := by
  induction p with
  | nil => simp [startsWithChars]
  | cons q qs ih => simp [startsWithChars, ih]

theorem startsWithChars_shape {s p : List Char} (h : startsWithChars s p = true) :
    ∃ r, s = p ++ r := by
  induction p generalizing s with
  | nil => exact ⟨s, rfl⟩
  | cons q qs ih =>
    cases s with
    | nil => simp [startsWithChars] at h
    | cons c cs =>
      simp only [startsWithChars, Bool.and_eq_true, beq_iff_eq] at h
      obtain ⟨rfl, h2⟩ := h
      obtain ⟨r, rfl⟩ := ih h2
      exact ⟨r, rfl⟩

theorem drop_len_append {α : Type} (l1 l2 : List α) : (l1 ++ l2).drop l1.length = l2 := by
  induction l1 with
  | nil => rfl
  | cons a l ih => simp [ih]

theorem keyOf_ns_append (r : List Char) : keyOf (nsKey ++ r) = nsName := rfl

theorem keyOf_iv_append (r : List Char) : keyOf (ivKey ++ r) = ivName := rfl

theorem not_starts_iv_ns (r : List Char) : startsWithChars (ivKey ++ r) nsKey = false := rfl

theorem not_starts_ns_iv (r : List Char) : startsWithChars (nsKey ++ r) ivKey = false := rfl

theorem not_starts_ns_of_key {l : List Char} (h : keyOf l ≠ nsName) :
    startsWithChars l nsKey = false := by
  cases hx : startsWithChars l nsKey with
  | false => rfl
  | true =>
    obtain ⟨r, rfl⟩ := startsWithChars_shape hx
    exact absurd (keyOf_ns_append r) h

theorem not_starts_iv_of_key {l : List Char} (h : keyOf l ≠ ivName) :
    startsWithChars l ivKey = false := by
  cases hx : startsWithChars l ivKey with
  | false => rfl
  | true =>
    obtain ⟨r, rfl⟩ := startsWithChars_shape hx
    exact absurd (keyOf_iv_append r) h

/-! Helper lemmas about single entries of the response parser. -/

theorem parse_entry_ns (st : ParseState) (r : List Char) :
    parse_entry st (nsKey ++ r) = .ok { st with ns := some r } := by
  simp [parse_entry, startsWithChars_append, drop_len_append]

theorem parse_entry_iv (st : ParseState) (v : List Char) :
    parse_entry st (ivKey ++ v) =
      if v = trueChars then .ok { st with is_valid := some true }
      else if v = falseChars then .ok { st with is_valid := some false }
      else .error ("Could not parse value is_valid as boolean") := by
  simp [parse_entry, startsWithChars_append, not_starts_iv_ns, drop_len_append]

theorem parse_entry_unknown {l : List Char} (h1 : startsWithChars l nsKey = false)
    (h2 : startsWithChars l ivKey = false) (st : ParseState) :
    parse_entry st l = .error ("Unknown entry") := by
  simp [parse_entry, h1, h2]

theorem parse_entry_unknown_bad {l : List Char} (h1 : startsWithChars l nsKey = false)
    (h2 : startsWithChars l ivKey = false) :
    ∀ st : ParseState, exceptOk (parse_entry st l) = false := by
  intro st
  rw [parse_entry_unknown h1 h2]
  rfl

theorem parse_entry_iv_bad {v : List Char} (h1 : v ≠ trueChars) (h2 : v ≠ falseChars) :
    ∀ st : ParseState, exceptOk (parse_entry st (ivKey ++ v)) = false := by
  intro st
  rw [parse_entry_iv]
  simp [h1, h2, exceptOk]

theorem parse_entry_ns_preserved {l : List Char} (h : startsWithChars l nsKey = false)
    {st st2 : ParseState} (hp : parse_entry st l = .ok st2) : st2.ns = st.ns := by
  simp only [parse_entry, h, Bool.false_eq_true, if_false] at hp
  split at hp
  · split at hp
    · cases hp
      rfl
    · split at hp
      · cases hp
        rfl
      · exact Except.noConfusion hp
  · exact Except.noConfusion hp

theorem parse_entry_iv_preserved {l : List Char} (h : startsWithChars l ivKey = false)
    {st st2 : ParseState} (hp : parse_entry st l = .ok st2) : st2.is_valid = st.is_valid := by
  simp only [parse_entry, h, Bool.false_eq_true, if_false] at hp
  split at hp
  · cases hp
    rfl
  · exact Except.noConfusion hp

/-! Helper lemmas about the entry loop. -/

theorem parse_entries_append (xs ys : List (List Char)) (st : ParseState) :
    parse_entries st (xs ++ ys) =
      match parse_entries st xs with
      | .error e => .error e
      | .ok st2 => parse_entries st2 ys := by
  induction xs generalizing st with
  | nil => rfl
  | cons l ls ih =>
    simp only [List.cons_append, parse_entries]
    cases h : parse_entry st l with
    | error e => rfl
    | ok st2 => exact ih st2

theorem parse_entries_error_of_mem {es : List (List Char)} {l : List Char}
    (hm : l ∈ es) (hf : ∀ st, exceptOk (parse_entry st l) = false) (st0 : ParseState) :
    exceptOk (parse_entries st0 es) = false := by
  induction es generalizing st0 with
  | nil => cases hm
  | cons x xs ih =>
    cases hx : parse_entry st0 x with
    | error e => simp [parse_entries, hx, exceptOk]
    | ok st2 =>
      rcases List.mem_cons.mp hm with rfl | hm2
      · have hc := hf st0
        rw [hx] at hc
        simp [exceptOk] at hc
      · simp only [parse_entries, hx]
        exact ih hm2 st2

theorem exceptOk_finalize_false {e : Except String ParseState}
    (h : exceptOk e = false) : exceptOk (finalize e) = false := by
  cases e with
  | error _ => rfl
  | ok st => simp [exceptOk] at h

theorem parse_result_error_of_mem {es : List (List Char)} {l : List Char}
    (hm : l ∈ es) (hf : ∀ st, exceptOk (parse_entry st l) = false) :
    exceptOk (parse_entries_result es) = false :=
  exceptOk_finalize_false (parse_entries_error_of_mem hm hf {})

theorem parse_entries_ns_preserved {es : List (List Char)}
    (h : ∀ l ∈ es, startsWithChars l nsKey = false) :
    ∀ st st2 : ParseState, parse_entries st es = .ok st2 → st2.ns = st.ns := by
  induction es with
  | nil =>
    intro st st2 hp
    cases hp
    rfl
  | cons x xs ih =>
    intro st st2 hp
    simp only [parse_entries] at hp
    cases hx : parse_entry st x with
    | error e =>
      rw [hx] at hp
      exact Except.noConfusion hp
    | ok stm =>
      rw [hx] at hp
      have h1 := parse_entry_ns_preserved (h x (List.mem_cons_self x xs)) hx
      have h2 := ih (fun l hl => h l (List.mem_cons_of_mem x hl)) stm st2 hp
      rw [h2, h1]

theorem parse_entries_iv_preserved {es : List (List Char)}
    (h : ∀ l ∈ es, startsWithChars l ivKey = false) :
    ∀ st st2 : ParseState, parse_entries st es = .ok st2 → st2.is_valid = st.is_valid := by
  induction es with
  | nil =>
    intro st st2 hp
    cases hp
    rfl
  | cons x xs ih =>
    intro st st2 hp
    simp only [parse_entries] at hp
    cases hx : parse_entry st x with
    | error e =>
      rw [hx] at hp
      exact Except.noConfusion hp
    | ok stm =>
      rw [hx] at hp
      have h1 := parse_entry_iv_preserved (h x (List.mem_cons_self x xs)) hx
      have h2 := ih (fun l hl => h l (List.mem_cons_of_mem x hl)) stm st2 hp
      rw [h2, h1]

theorem parse_result_missing_ns {es : List (List Char)}
    (h : ∀ l ∈ es, startsWithChars l nsKey = false) :
    exceptOk (parse_entries_result es) = false := by
  unfold parse_entries_result
  cases hp : parse_entries {} es with
  | error e => rfl
  | ok st2 =>
    have hns : st2.ns = none := parse_entries_ns_preserved h {} st2 hp
    cases st2 with
    | mk ns iv =>
      cases hns
      cases iv <;> simp [finalize, exceptOk]

theorem parse_result_missing_iv {es : List (List Char)}
    (h : ∀ l ∈ es, startsWithChars l ivKey = false) :
    exceptOk (parse_entries_result es) = false := by
  unfold parse_entries_result
  cases hp : parse_entries {} es with
  | error e => rfl
  | ok st2 =>
    have hiv : st2.is_valid = none := parse_entries_iv_preserved h {} st2 hp
    cases st2 with
    | mk ns iv =>
      cases hiv
      cases ns <;> simp [finalize, exceptOk]

/-! Helper lemmas for runs of the entry loop over accepted lines. -/

theorem parse_entries_good {es : List (List Char)} (h : ∀ l ∈ es, GoodLine l) :
    ∀ st : ParseState, ∃ st2, parse_entries st es = .ok st2 ∧
      st2.ns = optOr (lastNsVal es) st.ns ∧
      st2.is_valid = optOr (lastIvVal es) st.is_valid := by
  induction es with
  | nil =>
    intro st
    exact ⟨st, rfl, rfl, rfl⟩
  | cons l ls ih =>
    intro st
    have hl := h l (List.mem_cons_self l ls)
    have hrest := ih (fun x hx => h x (List.mem_cons_of_mem l hx))
    rcases hl with hns | ⟨hiv, hval⟩
    · obtain ⟨r, rfl⟩ := startsWithChars_shape hns
      obtain ⟨st2, hrun, hn, hv⟩ := hrest { st with ns := some r }
      refine ⟨st2, ?_, ?_, ?_⟩
      · simp only [parse_entries, parse_entry_ns]
        exact hrun
      · rw [hn]
        simp only [lastNsVal, startsWithChars_append, if_true, drop_len_append]
        cases hcase : lastNsVal ls <;> simp [optOr]
      · rw [hv]
        simp only [lastIvVal, not_starts_ns_iv]
        cases hcase : lastIvVal ls <;> simp [optOr]
    · obtain ⟨v, rfl⟩ := startsWithChars_shape hiv
      rw [drop_len_append] at hval
      have hentry : parse_entry st (ivKey ++ v) =
          .ok { st with is_valid := some (v == trueChars) } := by
        rcases hval with rfl | rfl
        · simp [parse_entry_iv]
        · rw [parse_entry_iv]
          have hne : falseChars ≠ trueChars := by decide
          have hbe : (falseChars == trueChars) = false := by decide
          simp [hne, hbe]
      obtain ⟨st2, hrun, hn, hv⟩ := hrest { st with is_valid := some (v == trueChars) }
      refine ⟨st2, ?_, ?_, ?_⟩
      · simp only [parse_entries, hentry]
        exact hrun
      · rw [hn]
        simp only [lastNsVal, not_starts_iv_ns]
        cases hcase : lastNsVal ls <;> simp [optOr]
      · rw [hv]
        simp only [lastIvVal, startsWithChars_append, if_true, drop_len_append]
        cases hcase : lastIvVal ls <;> simp [optOr]

theorem lastNsVal_some {es : List (List Char)} {l : List Char} (hm : l ∈ es)
    (hl : startsWithChars l nsKey = true) : ∃ v, lastNsVal es = some v := by
  induction es with
  | nil => cases hm
  | cons x xs ih =>
    rcases List.mem_cons.mp hm with rfl | hm2
    · cases hcase : lastNsVal xs with
      | some v => exact ⟨v, by simp [lastNsVal, hcase]⟩
      | none => exact ⟨l.drop nsKey.length, by simp [lastNsVal, hcase, hl]⟩
    · obtain ⟨v, hv⟩ := ih hm2
      exact ⟨v, by simp [lastNsVal, hv]⟩

theorem lastIvVal_some {es : List (List Char)} {l : List Char} (hm : l ∈ es)
    (hl : startsWithChars l ivKey = true) : ∃ b, lastIvVal es = some b := by
  induction es with
  | nil => cases hm
  | cons x xs ih =>
    rcases List.mem_cons.mp hm with rfl | hm2
    · cases hcase : lastIvVal xs with
      | some b => exact ⟨b, by simp [lastIvVal, hcase]⟩
      | none => exact ⟨l.drop ivKey.length == trueChars, by simp [lastIvVal, hcase, hl]⟩
    · obtain ⟨b, hb⟩ := ih hm2
      exact ⟨b, by simp [lastIvVal, hb]⟩

/-! Helper lemmas showing that the value stored for the ns key never
influences the further run of the parser. -/

theorem parse_entry_congr (l : List Char) {s1 s2 : ParseState}
    (hiv : s1.is_valid = s2.is_valid) (hns : s1.ns.isSome = s2.ns.isSome) :
    stIv (parse_entry s1 l) = stIv (parse_entry s2 l) ∧
    stNs (parse_entry s1 l) = stNs (parse_entry s2 l) := by
  by_cases h1 : startsWithChars l nsKey = true
  · simp [parse_entry, h1, stIv, stNs, hiv]
  · have h1f : startsWithChars l nsKey = false := by
      cases hx : startsWithChars l nsKey
      · rfl
      · exact absurd hx h1
    by_cases h2 : startsWithChars l ivKey = true
    · by_cases hv1 : l.drop ivKey.length = trueChars
      · simp [parse_entry, h1f, h2, hv1, stIv, stNs, hns]
      · have hne : falseChars ≠ trueChars := by decide
        by_cases hv2 : l.drop ivKey.length = falseChars
        · simp [parse_entry, h1f, h2, hv1, hv2, hne, stIv, stNs, hns]
        · simp [parse_entry, h1f, h2, hv1, hv2, stIv, stNs]
    · have h2f : startsWithChars l ivKey = false := by
        cases hx : startsWithChars l ivKey
        · rfl
        · exact absurd hx h2
      simp [parse_entry, h1f, h2f, stIv, stNs]

theorem parse_entries_congr (es : List (List Char)) :
    ∀ s1 s2 : ParseState, s1.is_valid = s2.is_valid → s1.ns.isSome = s2.ns.isSome →
    stIv (parse_entries s1 es) = stIv (parse_entries s2 es) ∧
    stNs (parse_entries s1 es) = stNs (parse_entries s2 es) := by
  induction es with
  | nil =>
    intro s1 s2 hiv hns
    exact ⟨by simp [parse_entries, stIv, hiv], by simp [parse_entries, stNs, hns]⟩
  | cons l ls ih =>
    intro s1 s2 hiv hns
    obtain ⟨e1, e2⟩ := parse_entry_congr l hiv hns
    cases hx1 : parse_entry s1 l with
    | error m1 =>
      cases hx2 : parse_entry s2 l with
      | error m2 => simp [parse_entries, hx1, hx2, stIv, stNs]
      | ok t2 =>
        rw [hx1, hx2] at e1
        simp [stIv] at e1
    | ok t1 =>
      cases hx2 : parse_entry s2 l with
      | error m2 =>
        rw [hx1, hx2] at e1
        simp [stIv] at e1
      | ok t2 =>
        rw [hx1, hx2] at e1 e2
        simp only [stIv, stNs, Option.some.injEq] at e1 e2
        simp only [parse_entries, hx1, hx2]
        exact ih t1 t2 e1 e2

theorem finalize_congr {e1 e2 : Except String ParseState}
    (hiv : stIv e1 = stIv e2) (hns : stNs e1 = stNs e2) :
    exceptOk (finalize e1) = exceptOk (finalize e2) ∧
    ivOf (finalize e1) = ivOf (finalize e2) := by
  cases e1 with
  | error m1 =>
    cases e2 with
    | error m2 => exact ⟨rfl, rfl⟩
    | ok s2 => simp [stIv] at hiv
  | ok s1 =>
    cases e2 with
    | error m2 => simp [stIv] at hiv
    | ok s2 =>
      simp only [stIv, stNs, Option.some.injEq] at hiv hns
      cases s1 with
      | mk n1 v1 =>
        cases s2 with
        | mk n2 v2 =>
          simp only at hiv hns
          cases v1 <;> cases v2 <;> cases n1 <;> cases n2 <;>
            simp_all [finalize, exceptOk, ivOf]

/-! Helper lemmas about the construction of the re-validation query. -/

theorem filter_mode_map_update (obj : List (String × String)) (k v : String)
    (hk : k ≠ "openid.mode") :
    (obj.map (fun p => if p.1 = k then (k, v) else p)).filter
        (fun p => p.1 == "openid.mode") =
      obj.filter (fun p => p.1 == "openid.mode") := by
  induction obj with
  | nil => rfl
  | cons p ps ih =>
    by_cases hp : p.1 = k
    · simp [List.filter_cons, hp, hk, ih]
    · simp [List.filter_cons, hp, ih]

theorem build_fold_mode (ps : List (String × String)) :
    ∀ acc : List (String × String),
    acc.filter (fun p => p.1 == "openid.mode") = [("openid.mode", "check_authentication")] →
    (ps.foldl build_step acc).filter (fun p => p.1 == "openid.mode") =
      [("openid.mode", "check_authentication")] := by
  induction ps with
  | nil =>
    intro acc h
    simpa using h
  | cons kv rest ih =>
    intro acc h
    rw [List.foldl_cons]
    apply ih
    by_cases hm : kv.1 = "openid.mode"
    · simpa [build_step, hm] using h
    · rw [build_step, if_neg hm, jsObjSet]
      by_cases hpr : kv.1 = "__proto__"
      · rw [if_pos hpr]
        exact h
      · rw [if_neg hpr]
        by_cases hc : kv.1 ∈ acc.map Prod.fst
        · rw [if_pos hc, filter_mode_map_update acc kv.1 kv.2 hm]
          exact h
        · rw [if_neg hc, List.filter_append, h]
          simp [hm]

theorem build_fold_nodup (ps : List (String × String)) :
    ∀ acc : List (String × String),
    ((ps.filter (fun p => p.1 != "openid.mode")).map Prod.fst).Nodup →
    (∀ p ∈ ps, p.1 ≠ "openid.mode" → p.1 ≠ "__proto__") →
    (∀ p ∈ ps, p.1 ≠ "openid.mode" → ¬ p.1 ∈ acc.map Prod.fst) →
    ps.foldl build_step acc = acc ++ ps.filter (fun p => p.1 != "openid.mode") := by
  induction ps with
  | nil =>
    intro acc _ _ _
    simp
  | cons kv rest ih =>
    intro acc hnd hproto hdisj
    rw [List.foldl_cons]
    by_cases hm : kv.1 = "openid.mode"
    · have hf : ((kv :: rest).filter (fun p => p.1 != "openid.mode")) =
          rest.filter (fun p => p.1 != "openid.mode") := by
        simp [List.filter_cons, hm]
      rw [hf] at hnd
      rw [build_step, if_pos hm, hf]
      exact ih acc hnd (fun p hp hpm => hproto p (List.mem_cons_of_mem kv hp) hpm)
        (fun p hp hpm => hdisj p (List.mem_cons_of_mem kv hp) hpm)
    · have hkv : ¬ kv.1 ∈ acc.map Prod.fst := hdisj kv (List.mem_cons_self kv rest) hm
      have hpr : kv.1 ≠ "__proto__" := hproto kv (List.mem_cons_self kv rest) hm
      have hstep : build_step acc kv = acc ++ [kv] := by
        simp [build_step, hm, jsObjSet, hpr, hkv]
      have hf : ((kv :: rest).filter (fun p => p.1 != "openid.mode")) =
          kv :: rest.filter (fun p => p.1 != "openid.mode") := by
        simp [List.filter_cons, hm]
      rw [hf] at hnd
      simp only [List.map_cons, List.nodup_cons] at hnd
      obtain ⟨hnotin, hnd2⟩ := hnd
      rw [hstep, hf]
      rw [ih (acc ++ [kv]) hnd2
        (fun p hp hpm => hproto p (List.mem_cons_of_mem kv hp) hpm) ?_]
      · simp
      · intro p hp hpm
        simp only [List.map_append, List.mem_append]
        rintro (hin | hin)
        · exact hdisj p (List.mem_cons_of_mem kv hp) hpm hin
        · simp only [List.map_cons, List.map_nil, List.mem_singleton] at hin
          apply hnotin
          rw [← hin]
          exact List.mem_map.mpr ⟨p, List.mem_filter.mpr ⟨hp, by simp [hpm]⟩, rfl⟩

theorem mem_insertByIdx {x p : String × String} {l : List (String × String)} :
    x ∈ insertByIdx p l ↔ x = p ∨ x ∈ l := by
  induction l with
  | nil => simp [insertByIdx]
  | cons q qs ih =>
    by_cases hc : digitsToNat p.1.data < digitsToNat q.1.data
    · simp only [insertByIdx, if_pos hc, List.mem_cons]
    · simp only [insertByIdx, if_neg hc, List.mem_cons, ih]
      tauto

theorem mem_sortByIdx {x : String × String} {l : List (String × String)} :
    x ∈ sortByIdx l ↔ x ∈ l := by
  induction l with
  | nil => simp [sortByIdx]
  | cons p ps ih => simp only [sortByIdx, mem_insertByIdx, ih, List.mem_cons]

theorem jsObjEntries_filter_key (obj : List (String × String)) (k : String)
    (hk : isArrayIndexKey k = false) :
    (jsObjEntries obj).filter (fun p => p.1 == k) = obj.filter (fun p => p.1 == k) := by
  unfold jsObjEntries
  rw [List.filter_append]
  have h1 : (sortByIdx (obj.filter (fun p => isArrayIndexKey p.1))).filter
      (fun p => p.1 == k) = [] := by
    apply List.filter_eq_nil_iff.mpr
    intro a ha
    have hidx : isArrayIndexKey a.1 = true :=
      (List.mem_filter.mp (mem_sortByIdx.mp ha)).2
    intro he
    have hak : a.1 = k := by simpa using he
    rw [hak, hk] at hidx
    exact Bool.noConfusion hidx
  have h2 : (obj.filter (fun p => !isArrayIndexKey p.1)).filter (fun p => p.1 == k) =
      obj.filter (fun p => p.1 == k) := by
    rw [List.filter_filter]
    apply List.filter_congr
    intro a _
    by_cases he : a.1 = k
    · simp [he, hk]
    · simp [he]
  rw [h1, h2, List.nil_append]

theorem jsObjEntries_no_index {obj : List (String × String)}
    (h : ∀ p ∈ obj, isArrayIndexKey p.1 = false) : jsObjEntries obj = obj := by
  unfold jsObjEntries
  have h1 : obj.filter (fun p => isArrayIndexKey p.1) = [] :=
    List.filter_eq_nil_iff.mpr (fun a ha => by simp [h a ha])
  have h2 : obj.filter (fun p => !isArrayIndexKey p.1) = obj :=
    List.filter_eq_self.mpr (fun a ha => by simp [h a ha])
  rw [h1, h2]
  rfl

/-! Helper lemmas about the identity extractor. -/

theorem lastIndexOf_none {ys : List Char} {t : Char} (h : ¬ t ∈ ys) :
    lastIndexOf? ys t = none := by
  induction ys with
  | nil => rfl
  | cons c cs ih =>
    have h1 : ¬ t ∈ cs := fun hm => h (List.mem_cons_of_mem c hm)
    have h2 : c ≠ t := by
      intro e
      exact h (by rw [e]; exact List.mem_cons_self t cs)
    simp [lastIndexOf?, ih h1, h2]

theorem lastIndexOf_append {xs ys : List Char} {t : Char} (h : ¬ t ∈ ys) :
    lastIndexOf? (xs ++ t :: ys) t = some xs.length := by
  induction xs with
  | nil => simp [lastIndexOf?, lastIndexOf_none h]
  | cons c cs ih => simp [lastIndexOf?, ih]

instance (l : List Char) : Decidable (GoodLine l) := by
  unfold GoodLine
  infer_instance

/-- Claim C1: for every callback request on the auth steam path in which
identifier extraction succeeds and the provider re-validation returns
HTTP 200 with a body the response parser accepts, the outcome is
authenticated exactly when the parsed is_valid field is true; the
written status is 200 when is_valid is true and 401 when it is false,
with an empty body in both cases. -/
theorem c1_callback_outcome (params_in : List (String × String)) (body : String)
    (sid : String) (r : OidCheckResult)
    (hext : parse_oid_claimed_id_steam (getParam params_in ("openid.claimed_id")) = .ok sid)
    (hparse : parse_oid_check_authentication body = .ok r) :
    handle_auth_steam params_in 200 body =
      .handled (build_params_out params_in)
        { status := if r.is_valid then 200 else 401, body := "" } := by
  simp [handle_auth_steam, hext, hparse]

/-- Witness for claim C1 at a concrete accepted callback, once with the
provider answering is_valid true and once with is_valid false. -/
theorem c1_callback_outcome_witness :
    handle_auth_steam
        [("openid.claimed_id", "https://steamcommunity.com/openid/id/00000000000000000")]
        200 ("ns:http://specs.openid.net/auth/2.0\nis_valid:true") =
      .handled
        [("openid.mode", "check_authentication"),
          ("openid.claimed_id", "https://steamcommunity.com/openid/id/00000000000000000")]
        { status := 200, body := "" } ∧
    handle_auth_steam
        [("openid.claimed_id", "https://steamcommunity.com/openid/id/00000000000000000")]
        200 ("ns:http://specs.openid.net/auth/2.0\nis_valid:false") =
      .handled
        [("openid.mode", "check_authentication"),
          ("openid.claimed_id", "https://steamcommunity.com/openid/id/00000000000000000")]
        { status := 401, body := "" } :=
  ⟨c1_callback_outcome _ _ ("00000000000000000")
      { ns := "http://specs.openid.net/auth/2.0", is_valid := true } rfl rfl,
    c1_callback_outcome _ _ ("00000000000000000")
      { ns := "http://specs.openid.net/auth/2.0", is_valid := false } rfl rfl⟩

/-- Claim C2, behavior of the code at the failing inputs: when the
openid.claimed_id parameter is absent, or present but structurally
invalid, the extraction call throws outside any try block, so the
exception escapes the async handler. No re-validation request is issued
(as the claim says), but contrary to the claim no status 500 and in
fact no response at all is written. -/
theorem c2_extraction_unhandled :
    handle_auth_steam [] 200 ("ns:x\nis_valid:true") =
      .unhandled ("TypeError: claimed_id is null") ∧
    issuedRequest (handle_auth_steam [] 200 ("ns:x\nis_valid:true")) = none ∧
    writtenResponse (handle_auth_steam [] 200 ("ns:x\nis_valid:true")) = none ∧
    handle_auth_steam [("openid.claimed_id", "bad")] 200 ("ns:x\nis_valid:true") =
      .unhandled ("AssertionError: idx is gt 0") ∧
    issuedRequest
        (handle_auth_steam [("openid.claimed_id", "bad")] 200 ("ns:x\nis_valid:true")) =
      none ∧
    writtenResponse
        (handle_auth_steam [("openid.claimed_id", "bad")] 200 ("ns:x\nis_valid:true")) =
      none :=
  ⟨rfl, rfl, rfl, rfl, rfl, rfl⟩

/-- Claim C3: for every response text whose non-empty lines consist of
exactly one ns line and exactly one is_valid line, in either order,
with the is_valid value being the literal true or false, the parser
succeeds; the ns field is everything after the first colon of the ns
line (even when that value contains colons), the is_valid field is the
corresponding boolean, and the result is the same for both line
orders. -/
theorem c3_response_roundtrip (text : String) (a b : List Char)
    (horder : entriesOf text = [nsKey ++ a, ivKey ++ b] ∨
      entriesOf text = [ivKey ++ b, nsKey ++ a])
    (hb : b = trueChars ∨ b = falseChars) :
    parse_oid_check_authentication text =
      .ok { ns := String.mk a, is_valid := b == trueChars } := by
  have hne : falseChars ≠ trueChars := by decide
  have hbe : (falseChars == trueChars) = false := by decide
  have hte : (trueChars == trueChars) = true := by decide
  unfold parse_oid_check_authentication parse_entries_result
  rcases horder with h | h <;> rw [h] <;> rcases hb with rfl | rfl <;>
    simp [parse_entries, parse_entry_ns, parse_entry_iv, finalize, hne, hbe, hte]

/-- Witness for claim C3 at the response text the source itself uses in
its inline test, with the value containing further colons. -/
theorem c3_response_roundtrip_witness :
    parse_oid_check_authentication ("ns:http://specs.openid.net/auth/2.0\nis_valid:true\n") =
      .ok { ns := "http://specs.openid.net/auth/2.0", is_valid := true } := by
  have h := c3_response_roundtrip ("ns:http://specs.openid.net/auth/2.0\nis_valid:true\n")
    ("http://specs.openid.net/auth/2.0".data) trueChars
    (Or.inl (by decide)) (Or.inl rfl)
  simpa using h

/-- Claim C4: the response parser fails, returning no partial result,
on empty input, on any line whose key is neither ns nor is_valid, on an
is_valid line whose value is not the literal true or false, and on
input in which either required key is missing after all lines are
processed. -/
theorem c4_parse_errors :
    exceptOk (parse_oid_check_authentication ("")) = false ∧
    (∀ (text : String) (l : List Char), l ∈ entriesOf text →
      keyOf l ≠ nsName → keyOf l ≠ ivName →
      exceptOk (parse_oid_check_authentication text) = false) ∧
    (∀ (text : String) (v : List Char), (ivKey ++ v) ∈ entriesOf text →
      v ≠ trueChars → v ≠ falseChars →
      exceptOk (parse_oid_check_authentication text) = false) ∧
    (∀ text : String, (∀ l ∈ entriesOf text, keyOf l ≠ nsName) →
      exceptOk (parse_oid_check_authentication text) = false) ∧
    (∀ text : String, (∀ l ∈ entriesOf text, keyOf l ≠ ivName) →
      exceptOk (parse_oid_check_authentication text) = false) := by
  refine ⟨rfl, ?_, ?_, ?_, ?_⟩
  · intro text l hm h1 h2
    exact parse_result_error_of_mem hm
      (parse_entry_unknown_bad (not_starts_ns_of_key h1) (not_starts_iv_of_key h2))
  · intro text v hm h1 h2
    exact parse_result_error_of_mem hm (parse_entry_iv_bad h1 h2)
  · intro text h
    exact parse_result_missing_ns (fun l hl => not_starts_ns_of_key (h l hl))
  · intro text h
    exact parse_result_missing_iv (fun l hl => not_starts_iv_of_key (h l hl))

/-- Witness for claim C4 at concrete inputs: empty input, an unknown
key, a non-boolean is_valid value, a missing ns key, and a missing
is_valid key. -/
theorem c4_parse_errors_witness :
    exceptOk (parse_oid_check_authentication ("")) = false ∧
    exceptOk (parse_oid_check_authentication ("foo:bar")) = false ∧
    exceptOk (parse_oid_check_authentication ("is_valid:maybe\nns:x")) = false ∧
    exceptOk (parse_oid_check_authentication ("is_valid:true")) = false ∧
    exceptOk (parse_oid_check_authentication ("ns:x")) = false :=
  ⟨c4_parse_errors.1,
    c4_parse_errors.2.1 ("foo:bar") ("foo:bar".data) (by decide) (by decide) (by decide),
    c4_parse_errors.2.2.1 ("is_valid:maybe\nns:x") ("maybe".data)
      (by decide) (by decide) (by decide),
    c4_parse_errors.2.2.2.1 ("is_valid:true") (by decide),
    c4_parse_errors.2.2.2.2 ("ns:x") (by decide)⟩

/-- Claim C5, counterexamples: with the received query a=1 followed by
a=2, the field a=1 is a received non-mode field that the built
re-validation request does not contain, because assignment into the
JavaScript object collapses duplicate keys; with the received query a=1
followed by 0=2, the array-index key 0 is enumerated before every
string key, so the fields are not issued in their received order; and a
received field with key __proto__ creates no own property, so it is not
forwarded at all. -/
theorem c5_counterexample :
    build_params_out [("a", "1"), ("a", "2")] =
      [("openid.mode", "check_authentication"), ("a", "2")] ∧
    (("a", "1") : String × String) ∈ [("a", "1"), ("a", "2")] ∧
    ¬ (("a", "1") : String × String) ∈ build_params_out [("a", "1"), ("a", "2")] ∧
    build_params_out [("a", "1"), ("0", "2")] =
      [("0", "2"), ("openid.mode", "check_authentication"), ("a", "1")] ∧
    build_params_out [("__proto__", "x")] = [("openid.mode", "check_authentication")] ∧
    ¬ (("__proto__", "x") : String × String) ∈ build_params_out [("__proto__", "x")] := by
  decide

/-- Claim C5 as amended: for every sequence of callback query
parameters, the built re-validation request contains exactly one
openid.mode field, with value check_authentication. Received non-mode
fields are assigned into a JavaScript object, so duplicate keys
collapse into a single entry, a field with key __proto__ creates no
property, and array-index keys are enumerated before the others; but
whenever no non-mode key occurs more than once, none is __proto__ and
none is an array index, every received non-mode field is forwarded
unchanged and in its received order after the mode field. -/
theorem c5_amended_forwarding (ps : List (String × String)) :
    (build_params_out ps).filter (fun p => p.1 == "openid.mode") =
      [("openid.mode", "check_authentication")] ∧
    ((((ps.filter (fun p => p.1 != "openid.mode")).map Prod.fst).Nodup ∧
      (∀ p ∈ ps, p.1 ≠ "openid.mode" →
        p.1 ≠ "__proto__" ∧ isArrayIndexKey p.1 = false)) →
      build_params_out ps =
        ("openid.mode", "check_authentication") :: ps.filter (fun p => p.1 != "openid.mode")) := by
  constructor
  · unfold build_params_out
    rw [jsObjEntries_filter_key _ _ (by decide)]
    exact build_fold_mode ps [("openid.mode", "check_authentication")] (by decide)
  · rintro ⟨hnd, hsafe⟩
    have hobj := build_fold_nodup ps [("openid.mode", "check_authentication")] hnd
      (fun p hp hpm => (hsafe p hp hpm).1)
      (fun p hp hpm => by simpa using hpm)
    unfold build_params_out
    rw [hobj]
    have hni : jsObjEntries ([("openid.mode", "check_authentication")] ++
        ps.filter (fun p => p.1 != "openid.mode")) =
        [("openid.mode", "check_authentication")] ++
          ps.filter (fun p => p.1 != "openid.mode") := by
      apply jsObjEntries_no_index
      intro p hp
      rcases List.mem_append.mp hp with hp1 | hp2
      · rw [List.mem_singleton] at hp1
        rw [hp1]
        decide
      · have hmem := List.mem_filter.mp hp2
        exact (hsafe p hmem.1 (by simpa using hmem.2)).2
    rw [hni]
    rfl

/-- Witness for the amended claim C5 at a concrete callback query with
pairwise distinct keys, none of them an array index or __proto__, one
of them a received openid.mode field. -/
theorem c5_amended_forwarding_witness :
    (build_params_out
        [("openid.claimed_id", "x"), ("openid.mode", "id_res"), ("openid.sig", "s")]).filter
        (fun p => p.1 == "openid.mode") = [("openid.mode", "check_authentication")] ∧
    build_params_out
        [("openid.claimed_id", "x"), ("openid.mode", "id_res"), ("openid.sig", "s")] =
      [("openid.mode", "check_authentication"), ("openid.claimed_id", "x"),
        ("openid.sig", "s")] :=
  ⟨(c5_amended_forwarding
      [("openid.claimed_id", "x"), ("openid.mode", "id_res"), ("openid.sig", "s")]).1,
    (c5_amended_forwarding
      [("openid.claimed_id", "x"), ("openid.mode", "id_res"), ("openid.sig", "s")]).2
      ⟨by decide, by decide⟩⟩

/-- Claim C6: for every input of the form prefix, slash, then seventeen
characters, with a non-empty prefix and the trailing seventeen
characters free of further slashes, the identity extractor succeeds and
returns exactly that trailing segment, unchanged and with no
character-set validation. -/
theorem c6_extractor_success (p s : String) (hp : p ≠ "") (hlen : s.data.length = 17)
    (hslash : ¬ '/' ∈ s.data) :
    parse_oid_claimed_id_steam (some (p ++ "/" ++ s)) = .ok s := by
  cases p with
  | mk pd =>
    cases s with
    | mk sd =>
      have hpd : pd ≠ [] := fun e => hp (by rw [e])
      have hlen2 : sd.length = 17 := hlen
      have hsl : ¬ '/' ∈ sd := hslash
      have hdata : (String.mk pd ++ "/" ++ String.mk sd).data = pd ++ '/' :: sd := by
        show (pd ++ ['/']) ++ sd = pd ++ '/' :: sd
        simp
      have hpos : 0 < pd.length := List.length_pos.mpr hpd
      have hdrop : (pd ++ '/' :: sd).drop (pd.length + 1) = sd := by
        have he : pd ++ '/' :: sd = (pd ++ ['/']) ++ sd := by simp
        have hl : (pd ++ ['/']).length = pd.length + 1 := by simp
        rw [he, ← hl, drop_len_append]
      simp [parse_oid_claimed_id_steam, hdata, lastIndexOf_append hsl, hpos, hdrop, hlen2]

/-- Witness for claim C6 at the claimed-identity URL from the inline
test of the source, with a seventeen-character identifier made of
digits, and the result unchanged. -/
theorem c6_extractor_success_witness :
    parse_oid_claimed_id_steam
        (some ("https://steamcommunity.com/openid/id" ++ "/" ++ "00000000000000000")) =
      .ok ("00000000000000000") :=
  c6_extractor_success ("https://steamcommunity.com/openid/id") ("00000000000000000")
    (by decide) (by decide) (by decide)

/-- Claim C7: the identity extractor fails with an extraction error for
every input that is missing, contains no slash, has its only slash at
position 0, or whose segment after the last slash is not exactly
seventeen characters long. -/
theorem c7_extractor_failures :
    exceptOk (parse_oid_claimed_id_steam none) = false ∧
    (∀ s : String, ¬ '/' ∈ s.data →
      exceptOk (parse_oid_claimed_id_steam (some s)) = false) ∧
    (∀ s : String, lastIndexOf? s.data '/' = some 0 →
      exceptOk (parse_oid_claimed_id_steam (some s)) = false) ∧
    (∀ (s : String) (i : Nat), lastIndexOf? s.data '/' = some i →
      (s.data.drop (i + 1)).length ≠ 17 →
      exceptOk (parse_oid_claimed_id_steam (some s)) = false) := by
  refine ⟨rfl, ?_, ?_, ?_⟩
  · intro s h
    simp [parse_oid_claimed_id_steam, lastIndexOf_none h, exceptOk]
  · intro s h
    simp [parse_oid_claimed_id_steam, h, exceptOk]
  · intro s i h hlen
    rcases Nat.eq_zero_or_pos i with rfl | hpos
    · simp [parse_oid_claimed_id_steam, h, exceptOk]
    · have hlen2 : ¬ s.length - (i + 1) = 17 := fun hc =>
        hlen (by rw [List.length_drop]; exact hc)
      simp [parse_oid_claimed_id_steam, h, hpos, hlen2, exceptOk]

/-- Witness for claim C7 at concrete inputs: a missing parameter, a
string without a slash, a string whose only slash is at position 0 even
though its trailing segment has seventeen characters, and a string with
a short trailing segment. -/
theorem c7_extractor_failures_witness :
    exceptOk (parse_oid_claimed_id_steam none) = false ∧
    exceptOk (parse_oid_claimed_id_steam (some ("steamcommunity"))) = false ∧
    exceptOk (parse_oid_claimed_id_steam (some ("/00000000000000000"))) = false ∧
    exceptOk (parse_oid_claimed_id_steam (some ("https://a/123"))) = false :=
  ⟨c7_extractor_failures.1,
    c7_extractor_failures.2.1 ("steamcommunity") (by decide),
    c7_extractor_failures.2.2.1 ("/00000000000000000") (by decide),
    c7_extractor_failures.2.2.2 ("https://a/123") 9 (by decide) (by decide)⟩

/-- Claim C8: for every request to the root path, whatever query the
configured provider URL may already carry, the response has status 303,
an empty body, and a Location header equal to the provider base URL
with the pre-existing query cleared, no fragment, and the fixed
protocol parameter mapping (containing openid.mode=checkid_setup and
the configured return_to and realm) appended in its fixed order. -/
theorem c8_root_redirect (q0 : List (String × String)) :
    handle_root
        { url := { base := "https://steamcommunity.com/openid/login",
                   query := q0,
                   fragment := none },
          params := config_steam_openid.params } =
      { status := 303, body := "",
        location := some { base := "https://steamcommunity.com/openid/login",
                           query := config_steam_openid.params,
                           fragment := none } } ∧
    ("openid.mode", "checkid_setup") ∈ config_steam_openid.params ∧
    ("openid.return_to", "http://localhost:8080/auth/steam") ∈ config_steam_openid.params ∧
    ("openid.realm", "http://localhost:8080") ∈ config_steam_openid.params :=
  ⟨rfl, by decide, by decide, by decide⟩

/-- Claim C9, counterexample to the claim as stated: this response text
contains the recognized key ns on more than one line, both recognized
keys appear at least once, and every is_valid line carries a literal
boolean, yet the parser fails, because the text also contains a line
with an unrecognized key, a case the claim does not except. -/
theorem c9_counterexample :
    entriesOf ("ns:a\nns:b\nis_valid:true\nfoo:bar") =
      ["ns:a".data, "ns:b".data, "is_valid:true".data, "foo:bar".data] ∧
    startsWithChars ("ns:a".data) nsKey = true ∧
    startsWithChars ("ns:b".data) nsKey = true ∧
    startsWithChars ("is_valid:true".data) ivKey = true ∧
    ("is_valid:true".data).drop ivKey.length = trueChars ∧
    keyOf ("foo:bar".data) ≠ nsName ∧
    keyOf ("foo:bar".data) ≠ ivName ∧
    exceptOk (parse_oid_check_authentication ("ns:a\nns:b\nis_valid:true\nfoo:bar")) = false := by
  decide

/-- Claim C9 as amended: if the response text contains a recognized key
on more than one line, the parser does not reject the duplication: it
succeeds whenever both keys appear at least once, every non-empty line
bears one of the two recognized keys, and every is_valid value is a
literal true or false; the returned value for each key is that of its
last occurrence in the text. -/
theorem c9_amended_last_occurrence (text : String)
    (hgood : ∀ l ∈ entriesOf text, GoodLine l)
    (hns : ∃ l ∈ entriesOf text, startsWithChars l nsKey = true)
    (hiv : ∃ l ∈ entriesOf text, startsWithChars l ivKey = true) :
    ∃ r, parse_oid_check_authentication text = .ok r ∧
      lastNsVal (entriesOf text) = some r.ns.data ∧
      lastIvVal (entriesOf text) = some r.is_valid := by
  obtain ⟨st2, hrun, hn, hv⟩ := parse_entries_good hgood {}
  obtain ⟨ln, hln, hlns⟩ := hns
  obtain ⟨vn, hvn⟩ := lastNsVal_some hln hlns
  obtain ⟨li, hli, hlis⟩ := hiv
  obtain ⟨bv, hbv⟩ := lastIvVal_some hli hlis
  rw [hvn] at hn
  rw [hbv] at hv
  simp only [optOr] at hn hv
  refine ⟨{ ns := String.mk vn, is_valid := bv }, ?_, hvn, hbv⟩
  show parse_entries_result (entriesOf text) = _
  unfold parse_entries_result
  rw [hrun]
  cases st2 with
  | mk n v =>
    have hn2 : n = some vn := hn
    have hv2 : v = some bv := hv
    subst hn2
    subst hv2
    rfl

/-- Witness for the amended claim C9 at a text in which both keys are
duplicated: the parse succeeds and returns the last occurrence of
each. -/
theorem c9_amended_last_occurrence_witness :
    ∃ r, parse_oid_check_authentication ("ns:a\nns:b\nis_valid:true\nis_valid:false") =
        .ok r ∧
      lastNsVal (entriesOf ("ns:a\nns:b\nis_valid:true\nis_valid:false")) = some r.ns.data ∧
      lastIvVal (entriesOf ("ns:a\nns:b\nis_valid:true\nis_valid:false")) = some r.is_valid :=
  c9_amended_last_occurrence ("ns:a\nns:b\nis_valid:true\nis_valid:false")
    (by decide) (by decide) (by decide)

/-- Claim C10: the parser applies no validation to the ns value. A line
made of the ns key followed by any value, including the empty one, is
always accepted and stores exactly that value, and replacing the ns
value of such a line by any other value changes neither whether the
whole parse succeeds nor the is_valid result. -/
theorem c10_ns_value_unvalidated (st : ParseState) (v w : List Char)
    (pre post : List (List Char)) :
    parse_entry st (nsKey ++ v) = .ok { st with ns := some v } ∧
    exceptOk (parse_entries_result (pre ++ (nsKey ++ v) :: post)) =
      exceptOk (parse_entries_result (pre ++ (nsKey ++ w) :: post)) ∧
    ivOf (parse_entries_result (pre ++ (nsKey ++ v) :: post)) =
      ivOf (parse_entries_result (pre ++ (nsKey ++ w) :: post)) := by
  refine ⟨parse_entry_ns st v, ?_⟩
  unfold parse_entries_result
  rw [parse_entries_append, parse_entries_append]
  cases hpre : parse_entries {} pre with
  | error e => exact ⟨rfl, rfl⟩
  | ok stp =>
    simp only [parse_entries, parse_entry_ns]
    have hcong := parse_entries_congr post { stp with ns := some v }
      { stp with ns := some w } rfl rfl
    exact finalize_congr hcong.1 hcong.2

end OpenidSteam
